import Mathlib

/-!
Verification of the server-side checkers engine (`src/game/CheckersGame.js`).

The JavaScript class `CheckersGame` is shallowly embedded here:
* the 8x8 board is a list of 8 rows, each a list of 8 cells
  (`Option Piece`), so a cell holds at most one piece by construction;
* JavaScript array indexing with client-supplied integers is modelled by
  `jsIndex` (out-of-range access yields `none`, i.e. `undefined`), and an
  expression such as `board[r][c]` that would throw a `TypeError` when
  `board[r]` is `undefined` is modelled in the `Except Unit` monad
  (`.error ()` = the call throws);
* the `players` object is an insertion-ordered association list, the
  `newGameRequests` `Set` an insertion-ordered duplicate-free list.
-/

inductive Color where
  | red
  | black
deriving DecidableEq, Repr

structure Piece where
  color : Color
  king : Bool
deriving DecidableEq, Repr

abbrev Cell := Option Piece

abbrev Board := List (List Cell)

inductive GState where
  | waiting
  | playing
  | finished
  | turn_selection
deriving DecidableEq, Repr

structure PlayerInfo where
  name : String
  color : Color
deriving DecidableEq, Repr

/-- JavaScript array read `xs[i]` with an arbitrary integer index:
out-of-range (including negative) indices give `undefined` (`none`). -/
def jsIndex {α : Type} (xs : List α) (i : Int) : Option α :=
  if 0 ≤ i then xs[i.toNat]? else none

/-- The value of the JavaScript expression `board[r][c]` at call sites where
the row index is known to be in range, collapsing `undefined` and `null`
cells to `none` (the two are interchangeable in every truthiness test the
engine performs on such reads). -/
def cellAt (b : Board) (r c : Int) : Cell :=
  (jsIndex ((jsIndex b r).getD []) c).getD none

/-- `cellAt` with natural-number coordinates, for stating invariants. -/
def cellAtN (b : Board) (r c : Nat) : Cell :=
  ((b[r]?.getD [])[c]?).getD none

/-- In-place update `board[r][c] = v` (all mutation sites in the source run
with validated, in-range coordinates). -/
def updAt (b : Board) (r c : Nat) (v : Cell) : Board :=
  b.set r ((b[r]?.getD []).set c v)

/-- `updAt` lifted to the integer coordinates the engine passes around. -/
def updAtI (b : Board) (r c : Int) (v : Cell) : Board :=
  if 0 ≤ r ∧ 0 ≤ c then updAt b r.toNat c.toNat v else b

/-- `initializeBoard()`: red pieces on the odd squares of rows 0-2, black
pieces on the odd squares of rows 5-7. -/
def initializeBoard : Board :=
  (List.range 8).map fun row =>
    (List.range 8).map fun col =>
      if row < 3 ∧ (row + col) % 2 = 1 then some ⟨Color.red, false⟩
      else if 5 ≤ row ∧ (row + col) % 2 = 1 then some ⟨Color.black, false⟩
      else none

structure CheckersGame where
  players : List (String × PlayerInfo)
  currentPlayer : Color
  gameState : GState
  winner : Option Color
  board : Board
  mustCapture : Bool
  capturingPiece : Option (Int × Int)
  newGameRequests : List String
  turnOrderSelector : Option String
  waitingForTurnOrderSelection : Bool
deriving DecidableEq, Repr

/-- The `CheckersGame` constructor (the unused `roomCode` and
`selectedPiece` fields are omitted; no game logic reads them). -/
def freshGame : CheckersGame where
  players := []
  currentPlayer := .red
  gameState := .waiting
  winner := none
  board := initializeBoard
  mustCapture := false
  capturingPiece := none
  newGameRequests := []
  turnOrderSelector := none
  waitingForTurnOrderSelection := false

/-- Lookup `this.players[playerId]` on the insertion-ordered object. -/
def lookupPlayer (ps : List (String × PlayerInfo)) (pid : String) : Option PlayerInfo :=
  (ps.find? fun p => p.1 = pid).map (·.2)

/-- `this.players[playerId] = v`: overwrite in place, or append a new key. -/
def setPlayer (ps : List (String × PlayerInfo)) (pid : String) (v : PlayerInfo) :
    List (String × PlayerInfo) :=
  if ps.any fun p => p.1 = pid then
    ps.map fun p => if p.1 = pid then (pid, v) else p
  else ps ++ [(pid, v)]

/-- `Set.prototype.add`: append only when absent. -/
def addUnique (l : List String) (x : String) : List String :=
  if x ∈ l then l else l ++ [x]

/-- Diagonal direction list used by both move enumerators: all four for a
king, otherwise the two forward directions of the piece's color. -/
def pieceDirections (p : Piece) : List (Int × Int) :=
  if p.king then [(-1, -1), (-1, 1), (1, -1), (1, 1)]
  else if p.color = .red then [(1, -1), (1, 1)]
  else [(-1, -1), (-1, 1)]

structure Capture where
  cfrom : Int × Int
  cto : Int × Int
  captured : Int × Int
deriving DecidableEq, Repr

/-- `getPieceCaptues(row, col)` (sic): the captures available to the piece
at `(row, col)`; its callers always pass an occupied cell, so the empty-cell
branch is unreachable in the source. -/
def getPieceCaptues (b : Board) (row col : Int) : List Capture :=
  match cellAt b row col with
  | none => []
  | some piece =>
    (pieceDirections piece).flatMap fun d =>
      if 0 ≤ row + 2 * d.1 ∧ row + 2 * d.1 < 8 ∧ 0 ≤ col + 2 * d.2 ∧ col + 2 * d.2 < 8 then
        match cellAt b (row + d.1) (col + d.2), cellAt b (row + 2 * d.1) (col + 2 * d.2) with
        | some cp, none =>
          if cp.color ≠ piece.color then
            [⟨(row, col), (row + 2 * d.1, col + 2 * d.2), (row + d.1, col + d.2)⟩]
          else []
        | _, _ => []
      else []

/-- `getAvailableCaptures(color)`: union over every own piece on the board. -/
def getAvailableCaptures (b : Board) (color : Color) : List Capture :=
  (List.range 8).flatMap fun row =>
    (List.range 8).flatMap fun col =>
      match cellAtN b row col with
      | some p => if p.color = color then getPieceCaptues b row col else []
      | none => []

structure GMove where
  mfrom : Int × Int
  mto : Int × Int
  mtype : String
  mcaptured : Option (Int × Int) := none
deriving DecidableEq, Repr

/-- `getValidMovesForPiece(row, col)`: step moves and capture moves of one
piece, in the source's per-direction order. -/
def getValidMovesForPiece (b : Board) (row col : Int) : List GMove :=
  match cellAt b row col with
  | none => []
  | some piece =>
    (pieceDirections piece).flatMap fun d =>
      (if 0 ≤ row + d.1 ∧ row + d.1 < 8 ∧ 0 ≤ col + d.2 ∧ col + d.2 < 8 ∧
          cellAt b (row + d.1) (col + d.2) = none then
        [⟨(row, col), (row + d.1, col + d.2), "move", none⟩]
      else []) ++
      (if 0 ≤ row + 2 * d.1 ∧ row + 2 * d.1 < 8 ∧ 0 ≤ col + 2 * d.2 ∧ col + 2 * d.2 < 8 then
        match cellAt b (row + d.1) (col + d.2), cellAt b (row + 2 * d.1) (col + 2 * d.2) with
        | some cp, none =>
          if cp.color ≠ piece.color then
            [⟨(row, col), (row + 2 * d.1, col + 2 * d.2), "capture", some (row + d.1, col + d.2)⟩]
          else []
        | _, _ => []
      else [])

/-- `getValidMovesForPlayer(color)`. -/
def getValidMovesForPlayer (b : Board) (color : Color) : List GMove :=
  (List.range 8).flatMap fun row =>
    (List.range 8).flatMap fun col =>
      match cellAtN b row col with
      | some p => if p.color = color then getValidMovesForPiece b row col else []
      | none => []

/-- `countPieces(color)`. -/
def countPieces (b : Board) (color : Color) : Nat :=
  (List.range 8).foldl (fun acc row =>
    (List.range 8).foldl (fun acc2 col =>
      match cellAtN b row col with
      | some p => if p.color = color then acc2 + 1 else acc2
      | none => acc2) acc) 0

/-- `checkGameOver()`: attrition first, then no-legal-move loss for the
player whose turn it is. -/
def checkGameOver (g : CheckersGame) : Option Color :=
  if countPieces g.board .red = 0 then some .black
  else if countPieces g.board .black = 0 then some .red
  else if getValidMovesForPlayer g.board g.currentPlayer = [] then
    some (if g.currentPlayer = .red then Color.black else .red)
  else none

inductive MoveValidation where
  | invalid (reason : String)
  | move
  | capture (capturedRow capturedCol : Int)
deriving DecidableEq, Repr

structure MoveResult where
  success : Bool
  reason : Option String := none
  capturedPiece : Option Piece := none
  promoted : Bool := false
  continueCapturing : Bool := false
  winner : Option Color := none
  gameState : Option GState := none
deriving DecidableEq, Repr

/-- The `{ success: false, reason }` object every rejection returns. -/
def mkRejection (r : String) : MoveResult :=
  { success := false, reason := some r }

/-- The mid-capture guard of `isValidMove`:
`this.mustCapture && this.capturingPiece && (fromRow !== ... || fromCol !== ...)`. -/
def mustContinueViolation (g : CheckersGame) (fromRow fromCol : Int) : Bool :=
  g.mustCapture &&
    match g.capturingPiece with
    | some cp => decide (fromRow ≠ cp.1 ∨ fromCol ≠ cp.2)
    | none => false

/-- `isValidMove(fromRow, fromCol, toRow, toCol, playerId)`.

`.error ()` marks the inputs on which the JavaScript method throws a
`TypeError`: an unknown `playerId` (line `this.players[playerId].color`) and
an out-of-range `fromRow`/`toRow` (indexing into an `undefined` board row).
The middle cell of a capture is always in range once the source and
destination checks have passed, so `cellAt` is exact there. -/
def isValidMove (g : CheckersGame) (fromRow fromCol toRow toCol : Int)
    (playerId : String) : Except Unit MoveValidation :=
  match lookupPlayer g.players playerId with
  | none => .error ()
  | some player =>
  if player.color ≠ g.currentPlayer then .ok (.invalid "Not your turn") else
  match jsIndex g.board fromRow with
  | none => .error ()
  | some fromRowCells =>
  match (jsIndex fromRowCells fromCol).getD none with
  | none => .ok (.invalid "Invalid source position")
  | some piece =>
  if piece.color ≠ g.currentPlayer then .ok (.invalid "Invalid source position") else
  match jsIndex g.board toRow with
  | none => .error ()
  | some toRowCells =>
  if jsIndex toRowCells toCol ≠ some none then .ok (.invalid "Destination not empty") else
  if (toRow + toCol) % 2 = 0 then .ok (.invalid "Can only move to dark squares") else
  if mustContinueViolation g fromRow fromCol then
    .ok (.invalid "Must continue capturing with the same piece") else
  if (toRow - fromRow).natAbs = 1 ∧ (toCol - fromCol).natAbs = 1 then
    (if piece.king = false ∧ (toRow - fromRow) ≠ (if piece.color = .red then 1 else -1) then
      .ok (.invalid "Invalid move direction")
    else if getAvailableCaptures g.board g.currentPlayer ≠ [] then
      .ok (.invalid "Must capture when possible")
    else .ok .move)
  else if (toRow - fromRow).natAbs = 2 ∧ (toCol - fromCol).natAbs = 2 then
    (if piece.king = false ∧ (toRow - fromRow).sign ≠ (if piece.color = .red then 1 else -1) then
      .ok (.invalid "Invalid capture direction")
    else
      match cellAt g.board (fromRow + (toRow - fromRow).sign) (fromCol + (toCol - fromCol).sign) with
      | none => .ok (.invalid "No piece to capture")
      | some middlePiece =>
        if middlePiece.color = g.currentPlayer then .ok (.invalid "No piece to capture")
        else .ok (.capture (fromRow + (toRow - fromRow).sign) (fromCol + (toCol - fromCol).sign)))
  else .ok (.invalid "Invalid move distance")

/-- The mutation half of `makeMove`, run once validation has succeeded:
relocate the piece, clear the captured cell and test for a continuation,
promote on the far row (which forfeits the continuation), switch the turn
unless a capture chain continues, then run `checkGameOver`. -/
def executeMove (g : CheckersGame) (fromRow fromCol toRow toCol : Int)
    (v : MoveValidation) : Except Unit (MoveResult × CheckersGame) :=
  match cellAt g.board fromRow fromCol with
  | none => .error ()
  | some piece =>
    let b1 := updAtI (updAtI g.board toRow toCol (some piece)) fromRow fromCol none
    let step1 : Option Piece × Board × Bool × Option (Int × Int) × Bool :=
      match v with
      | .capture capRow capCol =>
        let cap := cellAt b1 capRow capCol
        let b2 := updAtI b1 capRow capCol none
        if getPieceCaptues b2 toRow toCol ≠ [] then (cap, b2, true, some (toRow, toCol), true)
        else (cap, b2, false, none, false)
      | _ => (none, b1, false, none, false)
    let capturedPiece := step1.1
    let step2 : Board × Bool × Bool × Option (Int × Int) × Bool :=
      if piece.king = false ∧
          ((piece.color = .red ∧ toRow = 7) ∨ (piece.color = .black ∧ toRow = 0)) then
        let b3 := updAtI step1.2.1 toRow toCol (some { piece with king := true })
        if step1.2.2.2.2 then (b3, true, false, none, false)
        else (b3, true, step1.2.2.1, step1.2.2.2.1, step1.2.2.2.2)
      else (step1.2.1, false, step1.2.2.1, step1.2.2.2.1, step1.2.2.2.2)
    let continueCapturing := step2.2.2.2.2
    let g1 : CheckersGame :=
      { g with
        board := step2.1
        mustCapture := step2.2.2.1
        capturingPiece := step2.2.2.2.1
        currentPlayer :=
          if continueCapturing = false then
            (if g.currentPlayer = .red then Color.black else .red)
          else g.currentPlayer }
    let g2 : CheckersGame :=
      match checkGameOver g1 with
      | some w => { g1 with gameState := .finished, winner := some w }
      | none => g1
    .ok ({ success := true, capturedPiece := capturedPiece, promoted := step2.2.1,
           continueCapturing := continueCapturing, winner := g2.winner,
           gameState := some g2.gameState }, g2)

/-- `makeMove(fromRow, fromCol, toRow, toCol, playerId)`: validate, then
mutate; every rejection returns the untouched state. -/
def makeMove (g : CheckersGame) (fromRow fromCol toRow toCol : Int)
    (playerId : String) : Except Unit (MoveResult × CheckersGame) :=
  match isValidMove g fromRow fromCol toRow toCol playerId with
  | .error e => .error e
  | .ok (.invalid reason) => .ok (mkRejection reason, g)
  | .ok .move => executeMove g fromRow fromCol toRow toCol .move
  | .ok (.capture cr cc) => executeMove g fromRow fromCol toRow toCol (.capture cr cc)

/-- `addPlayer(playerId, playerName)`: first entrant is red, second black;
when the second joins, the phase moves to turn selection and the red
connection becomes the selector.  `.error ()` marks the (reachable only
after a departure) case where no red player exists and `redPlayer[0]`
throws; the mutations already performed are kept on the state. -/
def addPlayer (g : CheckersGame) (playerId playerName : String) :
    Except Unit Bool × CheckersGame :=
  if 2 ≤ g.players.length then (.ok false, g)
  else
    let color := if g.players.length = 0 then Color.red else Color.black
    let players' := setPlayer g.players playerId ⟨playerName, color⟩
    if players'.length = 2 then
      let g2 := { g with players := players', gameState := .turn_selection,
                         waitingForTurnOrderSelection := true }
      match players'.find? fun p => p.2.color = .red with
      | some rp => (.ok true, { g2 with turnOrderSelector := some rp.1 })
      | none => (.error (), g2)
    else (.ok true, { g with players := players' })

/-- `removePlayer(playerId)`. -/
def removePlayer (g : CheckersGame) (playerId : String) : CheckersGame :=
  let players' := g.players.filter fun p => p.1 ≠ playerId
  { g with
    players := players'
    newGameRequests := g.newGameRequests.filter fun x => x ≠ playerId
    gameState := if players'.length = 0 then .finished else g.gameState }

structure TurnOrderResult where
  success : Bool
  reason : Option String := none
  currentPlayer : Option Color := none
  startingPlayerName : Option String := none
deriving DecidableEq, Repr

/-- `selectTurnOrder(playerId, choice)`.  `.error ()` marks the source's
`selectorPlayer.color` read throwing when the recorded selector has already
left the room (`this.players[playerId]` is `undefined`); the `'Invalid
choice'` branch performs no such read and cannot throw. -/
def selectTurnOrder (g : CheckersGame) (playerId choice : String) :
    Except Unit (TurnOrderResult × CheckersGame) :=
  if g.turnOrderSelector ≠ some playerId ∨ g.waitingForTurnOrderSelection = false then
    .ok (⟨false, some "Not authorized to select turn order", none, none⟩, g)
  else if choice = "self" ∨ choice = "opponent" then
    match lookupPlayer g.players playerId with
    | none => .error ()
    | some selectorPlayer =>
      let cur :=
        if choice = "self" then selectorPlayer.color
        else if selectorPlayer.color = .red then Color.black else Color.red
      let g' := { g with currentPlayer := cur, gameState := .playing,
                         waitingForTurnOrderSelection := false, turnOrderSelector := none }
      .ok (⟨true, none, some cur,
            ((g'.players.find? fun p => p.2.color = cur).map fun p => p.2.name)⟩, g')
  else .ok (⟨false, some "Invalid choice", none, none⟩, g)

/-- `resetGame()`: fresh board and flags; with two players present the phase
returns to turn selection with the red connection as selector. -/
def resetGame (g : CheckersGame) : CheckersGame :=
  let g1 := { g with currentPlayer := Color.red, winner := none, board := initializeBoard,
                     mustCapture := false, capturingPiece := none, newGameRequests := [] }
  if g1.players.length = 2 then
    { g1 with gameState := .turn_selection, waitingForTurnOrderSelection := true,
              turnOrderSelector :=
                match g1.players.find? fun p => p.2.color = .red with
                | some rp => some rp.1
                | none => g1.players.head?.map (·.1) }
  else
    { g1 with gameState := .waiting, waitingForTurnOrderSelection := false,
              turnOrderSelector := none }

structure NewGameResult where
  approved : Bool
  bothAgreed : Option Bool := none
  reason : Option String := none
  waitingForOther : Option Bool := none
deriving DecidableEq, Repr

/-- `requestNewGame(playerId)`: unanimous-consent reset with 2 players,
immediate reset with 1, otherwise a waiting acknowledgement. -/
def requestNewGame (g : CheckersGame) (playerId : String) :
    NewGameResult × CheckersGame :=
  let g1 := { g with newGameRequests := addUnique g.newGameRequests playerId }
  if g1.players.length = 2 ∧ g1.newGameRequests.length = 2 then
    ({ approved := true, bothAgreed := some true }, resetGame g1)
  else if g1.players.length = 1 then
    ({ approved := true, bothAgreed := some false, reason := some "single_player" }, resetGame g1)
  else
    ({ approved := false, waitingForOther := some true }, g1)

/-- `cancelNewGameRequest(playerId)`. -/
def cancelNewGameRequest (g : CheckersGame) (playerId : String) : CheckersGame :=
  { g with newGameRequests := g.newGameRequests.filter fun x => x ≠ playerId }

/-- State reached by a `makeMove` call: rejections and throws leave the
session untouched (validation precedes every mutation). -/
def makeMoveState (g : CheckersGame) (fromRow fromCol toRow toCol : Int)
    (playerId : String) : CheckersGame :=
  match makeMove g fromRow fromCol toRow toCol playerId with
  | .ok (_, g') => g'
  | .error _ => g

/-- State reached by a `selectTurnOrder` call (a throw happens before any
mutation). -/
def selectTurnOrderState (g : CheckersGame) (playerId choice : String) : CheckersGame :=
  match selectTurnOrder g playerId choice with
  | .ok (_, g') => g'
  | .error _ => g

/-- State reached by an `addPlayer` call, including the partially mutated
state left behind when `redPlayer[0]` throws. -/
def addPlayerState (g : CheckersGame) (playerId playerName : String) : CheckersGame :=
  (addPlayer g playerId playerName).2

/-- State reached by a `requestNewGame` call. -/
def requestNewGameState (g : CheckersGame) (playerId : String) : CheckersGame :=
  (requestNewGame g playerId).2

/-- One session command with arbitrary (client-controlled) arguments. -/
inductive Step : CheckersGame → CheckersGame → Prop where
  | addPlayer (g : CheckersGame) (pid name : String) : Step g (addPlayerState g pid name)
  | removePlayer (g : CheckersGame) (pid : String) : Step g (removePlayer g pid)
  | makeMove (g : CheckersGame) (fr fc tr tc : Int) (pid : String) :
      Step g (makeMoveState g fr fc tr tc pid)
  | selectTurnOrder (g : CheckersGame) (pid choice : String) :
      Step g (selectTurnOrderState g pid choice)
  | requestNewGame (g : CheckersGame) (pid : String) : Step g (requestNewGameState g pid)
  | cancelNewGameRequest (g : CheckersGame) (pid : String) :
      Step g (cancelNewGameRequest g pid)

/-- Session states reachable from a fresh `CheckersGame` by any command
sequence. -/
def Reach (g : CheckersGame) : Prop :=
  Relation.ReflTransGen Step freshGame g

/-- The board is an 8x8 grid. -/
def boardShape (b : Board) : Prop :=
  b.length = 8 ∧ ∀ row ∈ b, row.length = 8

/-- The board well-formedness invariant: an 8x8 grid whose occupied cells
all lie on dark (odd-parity) squares.  Each cell holds at most one piece by
the `Cell = Option Piece` representation itself. -/
def boardOK (b : Board) : Prop :=
  boardShape b ∧ ∀ r < 8, ∀ c < 8, (cellAtN b r c).isSome = true → (r + c) % 2 = 1

instance (b : Board) : Decidable (boardShape b) := by
  unfold boardShape
  infer_instance

instance (b : Board) : Decidable (boardOK b) := by
  unfold boardOK
  infer_instance

/-- The ten rejection reasons named by the specification. -/
def specReasons : List String :=
  ["Not your turn", "Invalid source position", "Destination not empty",
   "Can only move to dark squares", "Must continue capturing with the same piece",
   "Must capture when possible", "No piece to capture", "Invalid move distance",
   "Invalid choice", "Not authorized to select turn order"]

/-- The rejection reasons the engine actually produces: the ten above plus
the two direction rejections. -/
def actualReasons : List String :=
  specReasons ++ ["Invalid move direction", "Invalid capture direction"]

/-- Room with two players joined: "A"/Alice is red, "B"/Bob is black. -/
def gJoined : CheckersGame := addPlayerState (addPlayerState freshGame "A" "Alice") "B" "Bob"

/-- Alice chose to start: the game is in the playing phase, red to move. -/
def gPlaying : CheckersGame := selectTurnOrderState gJoined "A" "self"

/-- Room with only Alice present. -/
def gOne : CheckersGame := addPlayerState freshGame "A" "Alice"

/-- Two opening moves: red (2,1)->(3,0), black (5,6)->(4,7). -/
def gMid : CheckersGame :=
  makeMoveState (makeMoveState gPlaying 2 1 3 0 "A") 5 6 4 7 "B"

/-- Eight legal plies from the start; red now has exactly one available
capture, (3,0) over (4,1) landing on (5,2), and must take it. -/
def gS : CheckersGame :=
  makeMoveState (makeMoveState (makeMoveState (makeMoveState (makeMoveState
    (makeMoveState gMid 2 7 3 6 "A") 6 5 5 6 "B") 1 0 2 1 "A") 7 4 6 5 "B")
    2 3 3 4 "A") 5 2 4 1 "B"

/-- After the forced capture (3,0)x(4,1)->(5,2): the red piece on (5,2) has
a further capture, so red is mid-chain (`mustCapture`, `capturingPiece`). -/
def gT : CheckersGame := makeMoveState gS 3 0 5 2 "A"

/-- The board of the specification's scenario: empty except a red king on
(5,5) and a black piece on (4,4). -/
def scenarioBoard : Board :=
  (List.range 8).map fun row =>
    (List.range 8).map fun col =>
      if row = 5 ∧ col = 5 then some ⟨Color.red, true⟩
      else if row = 4 ∧ col = 4 then some ⟨Color.black, false⟩
      else none

/-- A playing session holding the scenario board, red to move. -/
def scenarioGame : CheckersGame :=
  { freshGame with
    players := [("A", ⟨"Alice", Color.red⟩), ("B", ⟨"Bob", Color.black⟩)]
    currentPlayer := .red
    gameState := .playing
    board := scenarioBoard }

/-- The specification scenario translated onto dark (odd-parity) squares,
which is what the engine's `makeMove` actually accepts: red king on (5,4),
black piece on (4,3), landing cell (3,2). -/
def scenarioBoardDark : Board :=
  (List.range 8).map fun row =>
    (List.range 8).map fun col =>
      if row = 5 ∧ col = 4 then some ⟨Color.red, true⟩
      else if row = 4 ∧ col = 3 then some ⟨Color.black, false⟩
      else none

/-- A playing session holding the dark-square scenario board, red to move. -/
def scenarioGameDark : CheckersGame :=
  { freshGame with
    players := [("A", ⟨"Alice", Color.red⟩), ("B", ⟨"Bob", Color.black⟩)]
    currentPlayer := .red
    gameState := .playing
    board := scenarioBoardDark }

theorem jsIndex_eq_some {α : Type} {xs : List α} {i : Int} {a : α}
    (h : jsIndex xs i = some a) :
    0 ≤ i ∧ i.toNat < xs.length ∧ xs[i.toNat]? = some a := by
  unfold jsIndex at h
  split at h
  · exact ⟨by assumption, (List.getElem?_eq_some_iff.mp h).1, h⟩
  · exact absurd h (by simp)

theorem jsIndex_of_nonneg {α : Type} {xs : List α} {i : Int}
    (h0 : 0 ≤ i) : jsIndex xs i = xs[i.toNat]? := by
  unfold jsIndex
  simp [h0]

theorem cellAt_eq_cellAtN {b : Board} {r c : Int} (hr : 0 ≤ r) (hc : 0 ≤ c) :
    cellAt b r c = cellAtN b r.toNat c.toNat := by
  unfold cellAt cellAtN jsIndex
  simp [hr, hc]

theorem length_updAt (b : Board) (r c : Nat) (v : Cell) :
    (updAt b r c v).length = b.length := by
  unfold updAt
  simp

theorem rows_updAt {b : Board} {r c : Nat} {v : Cell}
    (h : ∀ row ∈ b, row.length = 8) : ∀ row ∈ updAt b r c v, row.length = 8 := by
  unfold updAt
  by_cases hlt : r < b.length
  · intro row hrow
    rcases List.mem_or_eq_of_mem_set hrow with h1 | h1
    · exact h _ h1
    · subst h1
      rw [List.length_set, List.getElem?_eq_getElem hlt]
      exact h _ (List.getElem_mem hlt)
  · rw [List.set_eq_of_length_le (by omega)]
    exact h

theorem boardShape_updAt {b : Board} {r c : Nat} {v : Cell}
    (hs : boardShape b) : boardShape (updAt b r c v) := by
  obtain ⟨hb, hrows⟩ := hs
  exact ⟨by rw [length_updAt, hb], rows_updAt hrows⟩

theorem cellAtN_updAt_isSome {b : Board} {rn cn : Nat} {v : Cell} {r c : Nat}
    (hs : boardShape b)
    (h : (cellAtN (updAt b rn cn v) r c).isSome = true) :
    (cellAtN b r c).isSome = true ∨ (r = rn ∧ c = cn ∧ v.isSome = true) := by
  obtain ⟨hb, hrows⟩ := hs
  by_cases hr : rn = r
  · subst hr
    by_cases hlt : rn < b.length
    · have hglen : b[rn].length = 8 := hrows _ (List.getElem_mem hlt)
      by_cases hc : cn = c
      · subst hc
        by_cases hlt2 : cn < 8
        · simp [updAt, cellAtN, List.getElem?_set, hlt, hglen, hlt2] at h
          exact Or.inr ⟨rfl, rfl, by simpa using h⟩
        · simp [updAt, cellAtN, List.getElem?_set, hlt, hglen, hlt2] at h
      · simp [updAt, cellAtN, List.getElem?_set, hlt, hc] at h
        exact Or.inl (by simp [cellAtN, List.getElem?_eq_getElem hlt]; simpa using h)
    · simp [updAt, cellAtN, List.getElem?_set, hlt] at h
  · simp [updAt, cellAtN, List.getElem?_set, hr] at h
    exact Or.inl (by simpa [cellAtN] using h)

theorem cellAtN_updAt_self {b : Board} {rn cn : Nat} {v : Cell}
    (hs : boardShape b) (hr : rn < 8) (hc : cn < 8) :
    cellAtN (updAt b rn cn v) rn cn = v := by
  obtain ⟨hb, hrows⟩ := hs
  have hrb : rn < b.length := by omega
  have hglen : cn < b[rn].length := by
    rw [hrows _ (List.getElem_mem hrb)]
    omega
  simp [updAt, cellAtN, List.getElem?_set, hrb, hglen]

theorem cellAtN_updAt_ne {b : Board} {rn cn : Nat} {v : Cell} {r c : Nat}
    (h : r ≠ rn ∨ c ≠ cn) :
    cellAtN (updAt b rn cn v) r c = cellAtN b r c := by
  by_cases hr : rn = r
  · subst hr
    rcases h with h | h
    · exact absurd rfl h
    · have hd : ¬(cn = c) := fun hh => h hh.symm
      by_cases hlt : rn < b.length
      · simp [updAt, cellAtN, List.getElem?_set, hlt, hd]
      · simp [updAt, cellAtN, List.getElem?_set, hlt,
              List.getElem?_eq_none (Nat.le_of_not_lt hlt)]
  · simp [updAt, cellAtN, List.getElem?_set, hr]

set_option maxHeartbeats 1000000

theorem isValidMove_invalid_mem {g : CheckersGame} {fr fc tr tc : Int} {pid : String}
    {r : String} (h : isValidMove g fr fc tr tc pid = .ok (.invalid r)) :
    r ∈ actualReasons := by
  unfold isValidMove at h
  repeat' split at h
  all_goals first
    | (simp only [Except.ok.injEq, MoveValidation.invalid.injEq, reduceCtorEq] at h
       subst h
       decide)
    | simp only [Except.ok.injEq, MoveValidation.invalid.injEq, reduceCtorEq] at h

theorem isValidMove_valid_facts {g : CheckersGame} {fr fc tr tc : Int} {pid : String}
    {v : MoveValidation} (h : isValidMove g fr fc tr tc pid = .ok v)
    (hnv : ∀ s, v ≠ .invalid s) :
    ∃ piece rowF rowT,
      jsIndex g.board fr = some rowF ∧ jsIndex rowF fc = some (some piece) ∧
      piece.color = g.currentPlayer ∧
      jsIndex g.board tr = some rowT ∧ jsIndex rowT tc = some none ∧
      (tr + tc) % 2 = 1 ∧
      (v = .move → (tr - fr).natAbs = 1 ∧ (tc - fc).natAbs = 1) ∧
      (∀ cr cc, v = .capture cr cc →
        cr = fr + (tr - fr).sign ∧ cc = fc + (tc - fc).sign ∧
        (tr - fr).natAbs = 2 ∧ (tc - fc).natAbs = 2) := by
  unfold isValidMove at h
  split at h
  · exact absurd h (by simp)
  next player hlp =>
  split at h
  · exact absurd (by injection h with h; exact h.symm) (hnv _)
  next hturn =>
  split at h
  · exact absurd h (by simp)
  next rowF hgfr =>
  split at h
  · exact absurd (by injection h with h; exact h.symm) (hnv _)
  next piece hpc =>
  split at h
  · exact absurd (by injection h with h; exact h.symm) (hnv _)
  next hcol =>
  split at h
  · exact absurd h (by simp)
  next rowT hgtr =>
  split at h
  · exact absurd (by injection h with h; exact h.symm) (hnv _)
  next hdest =>
  split at h
  · exact absurd (by injection h with h; exact h.symm) (hnv _)
  next hparity =>
  split at h
  · exact absurd (by injection h with h; exact h.symm) (hnv _)
  next hmcv =>
  have hpiece : jsIndex rowF fc = some (some piece) := by
    rcases hx : jsIndex rowF fc with _ | cc
    · rw [hx] at hpc
      simp at hpc
    · rw [hx] at hpc
      simp at hpc
      rw [hpc]
  have hdest' : jsIndex rowT tc = some none := not_ne_iff.mp hdest
  have hcol' : piece.color = g.currentPlayer := not_ne_iff.mp hcol
  have hparity' : (tr + tc) % 2 = 1 := by omega
  refine ⟨piece, rowF, rowT, hgfr, hpiece, hcol', hgtr, hdest', hparity', ?_⟩
  split at h
  next hdist =>
    split at h
    all_goals (
      split at h
      · exact absurd (by injection h with h; exact h.symm) (hnv _)
      · split at h
        · exact absurd (by injection h with h; exact h.symm) (hnv _)
        · have hv : v = .move := by injection h with h; exact h.symm
          subst hv
          refine ⟨fun _ => hdist, ?_⟩
          intro cr cc hx
          exact absurd hx (by simp))
  next hdist1 =>
  split at h
  next hdist2 =>
    split at h
    all_goals (
      split at h
      · exact absurd (by injection h with h; exact h.symm) (hnv _)
      · split at h
        · exact absurd (by injection h with h; exact h.symm) (hnv _)
        · next middlePiece hmid =>
          split at h
          · exact absurd (by injection h with h; exact h.symm) (hnv _)
          · have hv : v = .capture (fr + (tr - fr).sign) (fc + (tc - fc).sign) := by
              injection h with h
              exact h.symm
            subst hv
            refine ⟨fun hx => absurd hx (by simp), ?_⟩
            intro cr cc hx
            injection hx with h1 h2
            exact ⟨h1.symm, h2.symm, hdist2.1, hdist2.2⟩)
  · exact absurd (by injection h with h; exact h.symm) (hnv _)

theorem jsIndex_isSome_of_lt {α : Type} {xs : List α} {i : Int}
    (h0 : 0 ≤ i) (hl : i.toNat < xs.length) : jsIndex xs i ≠ none := by
  rw [jsIndex_of_nonneg h0]
  simp [List.getElem?_eq_getElem hl]

theorem isValidMove_no_throw {g : CheckersGame} {fr fc tr tc : Int} {pid : String}
    (hpl : (lookupPlayer g.players pid).isSome = true)
    (hfr : jsIndex g.board fr ≠ none)
    (htr : jsIndex g.board tr ≠ none) :
    ∃ v, isValidMove g fr fc tr tc pid = .ok v := by
  obtain ⟨pl, hpl⟩ := Option.isSome_iff_exists.mp hpl
  unfold isValidMove
  repeat' split
  all_goals first
    | exact ⟨_, rfl⟩
    | simp_all

theorem executeMove_ok {g : CheckersGame} {fr fc tr tc : Int} {v : MoveValidation}
    {res : MoveResult} {g' : CheckersGame}
    (h : executeMove g fr fc tr tc v = .ok (res, g')) :
    res.success = true ∧ res.reason = none := by
  unfold executeMove at h
  split at h
  · exact absurd h (by simp)
  · simp only [Except.ok.injEq, Prod.mk.injEq] at h
    rw [← h.1]
    exact ⟨rfl, rfl⟩

theorem executeMove_state {g : CheckersGame} {fr fc tr tc : Int} {v : MoveValidation}
    {res : MoveResult} {g' : CheckersGame}
    (h : executeMove g fr fc tr tc v = .ok (res, g')) :
    ∃ g1 : CheckersGame, g1.winner = g.winner ∧ g1.gameState = g.gameState ∧
      ((checkGameOver g1 = none ∧ g' = g1) ∨
       ∃ w, checkGameOver g1 = some w ∧
         g' = { g1 with gameState := GState.finished, winner := some w }) := by
  unfold executeMove at h
  split at h
  · exact absurd h (by simp)
  · simp only [Except.ok.injEq, Prod.mk.injEq] at h
    obtain ⟨hres, h2⟩ := h
    split at h2
    next w hc =>
      refine ⟨_, ?_, ?_, Or.inr ⟨w, hc, h2.symm⟩⟩ <;> rfl
    next hc =>
      refine ⟨_, ?_, ?_, Or.inl ⟨hc, h2.symm⟩⟩ <;> rfl

/-- C5 (amended): on the board given by the specification (red king (5,5),
black piece (4,4)) the per-piece enumeration does return exactly the one
capture from (5,5) over (4,4) to (3,3), but `makeMove` rejects the
application because (5,5) and (3,3) are light squares; on the parity-correct
translation of the scenario (king (5,4), black (4,3), landing (3,2)) the
enumeration returns exactly the one corresponding capture and applying it
removes the black piece and relocates the king. -/
theorem scenarioCapture :
    getPieceCaptues scenarioGame.board 5 5 = [⟨(5, 5), (3, 3), (4, 4)⟩] ∧
    makeMove scenarioGame 5 5 3 3 "A" =
      .ok (mkRejection "Can only move to dark squares", scenarioGame) ∧
    getPieceCaptues scenarioGameDark.board 5 4 = [⟨(5, 4), (3, 2), (4, 3)⟩] ∧
    (makeMove scenarioGameDark 5 4 3 2 "A").toOption.map (fun p => p.1.success) = some true ∧
    cellAt (makeMoveState scenarioGameDark 5 4 3 2 "A").board 4 3 = none ∧
    cellAt (makeMoveState scenarioGameDark 5 4 3 2 "A").board 3 2 = some ⟨Color.red, true⟩ ∧
    cellAt (makeMoveState scenarioGameDark 5 4 3 2 "A").board 5 4 = none :=
  ⟨by decide, by rfl, by decide, by rfl, by decide, by decide, by decide⟩

/-- Counterexample to C5 as stated: on the specification's own coordinates
the `makeMove` application is rejected ("Can only move to dark squares",
since 5+5 and 3+3 are even) and the black piece at (4,4) is not removed. -/
theorem scenarioCapture_cex :
    makeMove scenarioGame 5 5 3 3 "A" =
      .ok (mkRejection "Can only move to dark squares", scenarioGame) ∧
    cellAt (makeMoveState scenarioGame 5 5 3 3 "A").board 4 4 =
      some ⟨Color.black, false⟩ ∧
    (mkRejection "Can only move to dark squares").success = false :=
  ⟨by rfl, by decide, by decide⟩

/-- C10: with exactly 2 players and the requester already the sole member of
the pending set, a repeated `requestNewGame` returns the same
waiting-for-other result and leaves the whole session state unchanged. -/
theorem requestNewGameIdem (g : CheckersGame) (p : String)
    (h2 : g.players.length = 2) (hp : g.newGameRequests = [p]) :
    requestNewGame g p = ({ approved := false, waitingForOther := some true }, g) := by
  obtain ⟨players, cur, gs, w, b, mc, cp, ngr, tos, wts⟩ := g
  simp only at h2 hp
  subst hp
  simp [requestNewGame, addUnique, h2]

/-- Witness for C10 at a concrete two-player session. -/
theorem requestNewGameIdem_witness :
    requestNewGame { gPlaying with newGameRequests := ["A"] } "A" =
      ({ approved := false, waitingForOther := some true },
       { gPlaying with newGameRequests := ["A"] }) :=
  requestNewGameIdem _ "A" (by decide) rfl

/-- C6: new-game unanimity.  With 2 players, a first request only records
the requester and resets nothing; a second request from a different
connection resets board, turn, winner and flags and clears the pending set;
cancelling and then making a fresh single request does not reset; with
exactly 1 player a single request resets immediately. -/
theorem newGameUnanimity :
    (∀ g p, g.players.length = 2 → g.newGameRequests = [] →
      requestNewGame g p = ({ approved := false, waitingForOther := some true },
        { g with newGameRequests := [p] })) ∧
    (∀ g p q, g.players.length = 2 → g.newGameRequests = [p] → q ≠ p →
      (requestNewGame g q).1 = { approved := true, bothAgreed := some true } ∧
      (requestNewGame g q).2.board = initializeBoard ∧
      (requestNewGame g q).2.currentPlayer = .red ∧
      (requestNewGame g q).2.winner = none ∧
      (requestNewGame g q).2.newGameRequests = [] ∧
      (requestNewGame g q).2.gameState = .turn_selection ∧
      (requestNewGame g q).2.mustCapture = false ∧
      (requestNewGame g q).2.capturingPiece = none) ∧
    (∀ g p q, g.players.length = 2 → g.newGameRequests = [p] →
      requestNewGame (cancelNewGameRequest g p) q =
        ({ approved := false, waitingForOther := some true },
         { g with newGameRequests := [q] })) ∧
    (∀ g p, g.players.length = 1 →
      (requestNewGame g p).1 =
        { approved := true, bothAgreed := some false, reason := some "single_player" } ∧
      (requestNewGame g p).2.board = initializeBoard ∧
      (requestNewGame g p).2.gameState = .waiting ∧
      (requestNewGame g p).2.newGameRequests = []) := by
  refine ⟨?_, ?_, ?_, ?_⟩
  · intro g p h2 hp
    obtain ⟨players, cur, gs, w, b, mc, cp, ngr, tos, wts⟩ := g
    simp only at h2 hp
    subst hp
    simp [requestNewGame, addUnique, h2]
  · intro g p q h2 hp hq
    obtain ⟨players, cur, gs, w, b, mc, cp, ngr, tos, wts⟩ := g
    simp only at h2 hp
    subst hp
    simp [requestNewGame, addUnique, h2, hq, resetGame]
  · intro g p q h2 hp
    obtain ⟨players, cur, gs, w, b, mc, cp, ngr, tos, wts⟩ := g
    simp only at h2 hp
    subst hp
    simp [cancelNewGameRequest, requestNewGame, addUnique, h2]
  · intro g p h1
    obtain ⟨players, cur, gs, w, b, mc, cp, ngr, tos, wts⟩ := g
    simp only at h1
    simp [requestNewGame, addUnique, h1, resetGame]

/-- Witness for C6 at concrete sessions: the two-player room `gPlaying`
(parts 1-3) and the one-player room `gOne` (part 4). -/
theorem newGameUnanimity_witness :
    (requestNewGame gPlaying "A" = ({ approved := false, waitingForOther := some true },
      { gPlaying with newGameRequests := ["A"] })) ∧
    (requestNewGame { gPlaying with newGameRequests := ["A"] } "B").1 =
      { approved := true, bothAgreed := some true } ∧
    (requestNewGame { gPlaying with newGameRequests := ["A"] } "B").2.board =
      initializeBoard ∧
    (requestNewGame (cancelNewGameRequest { gPlaying with newGameRequests := ["A"] } "A") "B" =
      ({ approved := false, waitingForOther := some true },
       { { gPlaying with newGameRequests := ["A"] } with newGameRequests := ["B"] })) ∧
    (requestNewGame gOne "A").1 =
      { approved := true, bothAgreed := some false, reason := some "single_player" } ∧
    (requestNewGame gOne "A").2.gameState = .waiting := by
  refine ⟨?_, ?_, ?_, ?_, ?_, ?_⟩
  · exact newGameUnanimity.1 gPlaying "A" (by decide) (by decide)
  · exact (newGameUnanimity.2.1 { gPlaying with newGameRequests := ["A"] } "A" "B"
      (by decide) rfl (by decide)).1
  · exact (newGameUnanimity.2.1 { gPlaying with newGameRequests := ["A"] } "A" "B"
      (by decide) rfl (by decide)).2.1
  · exact newGameUnanimity.2.2.1 { gPlaying with newGameRequests := ["A"] } "A" "B"
      (by decide) rfl
  · exact (newGameUnanimity.2.2.2 gOne "A" (by decide)).1
  · exact (newGameUnanimity.2.2.2 gOne "A" (by decide)).2.2.1

/-- Counterexample to C1 as stated: in the reachable playing-phase session
`gS` red has a capture available, yet a single-diagonal-step request onto an
occupied destination is rejected with "Destination not empty", not with the
MustCapture reason. -/
theorem mandatoryCapture_cex :
    (gS.gameState = .playing ∧
     getAvailableCaptures gS.board gS.currentPlayer = [⟨(3, 0), (5, 2), (4, 1)⟩] ∧
     lookupPlayer gS.players "A" = some ⟨"Alice", gS.currentPlayer⟩ ∧
     ((3 : Int) - 2).natAbs = 1 ∧ ((4 : Int) - 5).natAbs = 1) ∧
    makeMove gS 2 5 3 4 "A" = .ok (mkRejection "Destination not empty", gS) ∧
    "Destination not empty" ≠ "Must capture when possible" :=
  ⟨by decide, by rfl, by decide⟩

/-- Counterexample to C2 as stated: in the reachable mid-capture session
`gT` (capturing piece recorded at (5,2)), a request by the same player from
the empty cell (3,2) ≠ (5,2) is rejected with "Invalid source position",
not with the MustContinueCapture reason. -/
theorem multiJumpBinding_cex :
    (gT.mustCapture = true ∧ gT.capturingPiece = some (5, 2) ∧
     gT.currentPlayer = .red ∧
     lookupPlayer gT.players "A" = some ⟨"Alice", Color.red⟩ ∧
     ¬((3 : Int) = 5 ∧ (2 : Int) = 2)) ∧
    makeMove gT 3 2 4 3 "A" = .ok (mkRejection "Invalid source position", gT) ∧
    "Invalid source position" ≠ "Must continue capturing with the same piece" :=
  ⟨by decide, by rfl, by decide⟩

/-- Counterexample to C8 as stated: a `makeMove` call whose playerId is not
a key of the players map throws (`this.players[playerId].color` is a
TypeError), modelled as `.error ()` rather than a structured result. -/
theorem misuse_cex :
    lookupPlayer gPlaying.players "Z" = none ∧
    makeMove gPlaying 2 1 3 2 "Z" = .error () :=
  ⟨by decide, by rfl⟩

/-- Counterexample to C9 as stated: a backward step by a regular piece in
the reachable session `gMid` is rejected with "Invalid move direction",
which corresponds to none of the ten listed reason codes. -/
theorem rejectionReason_cex :
    makeMove gMid 3 0 2 1 "A" = .ok (mkRejection "Invalid move direction", gMid) ∧
    "Invalid move direction" ∉ specReasons :=
  ⟨by rfl, by decide⟩

theorem cellAt_of_rows {b : Board} {r c : Int} {rowF : List Cell} {v : Cell}
    (h1 : jsIndex b r = some rowF) (h2 : jsIndex rowF c = some v) :
    cellAt b r c = v := by
  simp only [cellAt, h1, Option.getD_some, h2]

theorem boardShape_updAtI {b : Board} {r c : Int} {v : Cell}
    (hs : boardShape b) : boardShape (updAtI b r c v) := by
  unfold updAtI
  split
  · exact boardShape_updAt hs
  · exact hs

theorem cellAt_updAtI_self {b : Board} {r c : Int} {v : Cell}
    (hs : boardShape b) (hr0 : 0 ≤ r) (hr8 : r < 8) (hc0 : 0 ≤ c) (hc8 : c < 8) :
    cellAt (updAtI b r c v) r c = v := by
  unfold updAtI
  rw [if_pos ⟨hr0, hc0⟩, cellAt_eq_cellAtN hr0 hc0]
  exact cellAtN_updAt_self hs (by omega) (by omega)

theorem jsIndex_row_length {b : Board} (hs : boardShape b) {r : Int} {row : List Cell}
    (h : jsIndex b r = some row) : row.length = 8 := by
  obtain ⟨h0, hlt, hget⟩ := jsIndex_eq_some h
  exact hs.2 _ (List.get?_mem (by simpa [List.get?_eq_getElem?] using hget))

/-- C3: a capture that lands a non-king piece on the farthest row for its
color promotes it to king, reports `promoted`, clears the mandatory-capture
continuation (even if a further capture would geometrically exist from the
landing cell) and switches the turn to the opponent. -/
theorem promotionHaltsChain (g : CheckersGame) (fr fc tr tc cr cc : Int)
    (pid : String) (piece : Piece) (res : MoveResult) (g' : CheckersGame)
    (hs : boardShape g.board)
    (hv : isValidMove g fr fc tr tc pid = .ok (.capture cr cc))
    (hp : cellAt g.board fr fc = some piece)
    (hk : piece.king = false)
    (hfar : (piece.color = Color.red ∧ tr = 7) ∨ (piece.color = Color.black ∧ tr = 0))
    (hmm : makeMove g fr fc tr tc pid = .ok (res, g')) :
    res.promoted = true ∧ res.success = true ∧ res.continueCapturing = false ∧
    g'.mustCapture = false ∧ g'.capturingPiece = none ∧
    cellAt g'.board tr tc = some ⟨piece.color, true⟩ ∧
    g'.currentPlayer = (if g.currentPlayer = .red then Color.black else Color.red) := by
  have hexec : executeMove g fr fc tr tc (.capture cr cc) = .ok (res, g') := by
    unfold makeMove at hmm
    simp only [hv] at hmm
    exact hmm
  obtain ⟨piece', rowF, rowT, hgfr, hgfc, hpcol, hgtr, hgtc, hpar, _, hcapf⟩ :=
    isValidMove_valid_facts hv (by intro s hx; cases hx)
  have hpe : piece' = piece := by
    have hx := cellAt_of_rows hgfr hgfc
    rw [hp] at hx
    injection hx with hx
    exact hx.symm
  rw [hpe] at hgfc hpcol
  have htr0 : 0 ≤ tr := (jsIndex_eq_some hgtr).1
  have htr8 : tr < 8 := by
    have h1 := (jsIndex_eq_some hgtr).2.1
    rw [hs.1] at h1
    omega
  have htc0 : 0 ≤ tc := (jsIndex_eq_some hgtc).1
  have htc8 : tc < 8 := by
    have h1 := (jsIndex_eq_some hgtc).2.1
    rw [jsIndex_row_length hs hgtr] at h1
    omega
  unfold executeMove at hexec
  split at hexec
  next heq =>
    rw [heq] at hp
    cases hp
  next piece0 heq =>
  have hpe0 : piece = piece0 := Option.some.inj (hp.symm.trans heq)
  subst hpe0
  simp only [Except.ok.injEq, Prod.mk.injEq] at hexec
  have hshape1 : boardShape (updAtI (updAtI (updAtI g.board tr tc (some piece))
      fr fc none) cr cc none) :=
    boardShape_updAtI (boardShape_updAtI (boardShape_updAtI hs))
  split at hexec
  next hmore =>
    -- a further capture exists from the landing cell before promotion
    split at hexec
    next hpromo =>
      obtain ⟨hres, hg⟩ := hexec
      subst hres
      split at hg
      next w hw =>
        refine ⟨rfl, rfl, rfl, ?_, ?_, ?_, ?_⟩ <;> rw [← hg]
        · rfl
        · rfl
        · exact cellAt_updAtI_self hshape1 htr0 htr8 htc0 htc8
        · rfl
      next hw =>
        refine ⟨rfl, rfl, rfl, ?_, ?_, ?_, ?_⟩ <;> rw [← hg]
        · rfl
        · rfl
        · exact cellAt_updAtI_self hshape1 htr0 htr8 htc0 htc8
        · rfl
    next hpromo =>
      exact absurd ⟨hk, hfar⟩ hpromo
  next hmore =>
    split at hexec
    next hpromo =>
      obtain ⟨hres, hg⟩ := hexec
      subst hres
      split at hg
      next w hw =>
        refine ⟨rfl, rfl, rfl, ?_, ?_, ?_, ?_⟩ <;> rw [← hg]
        · rfl
        · rfl
        · exact cellAt_updAtI_self hshape1 htr0 htr8 htc0 htc8
        · rfl
      next hw =>
        refine ⟨rfl, rfl, rfl, ?_, ?_, ?_, ?_⟩ <;> rw [← hg]
        · rfl
        · rfl
        · exact cellAt_updAtI_self hshape1 htr0 htr8 htc0 htc8
        · rfl
    next hpromo =>
      exact absurd ⟨hk, hfar⟩ hpromo

/-- Witness for C3: the continuation capture (5,2)x(6,3)->(7,4) in the
reachable session `gT` promotes the red piece, clears the obligation and
passes the turn. -/
theorem promotionHaltsChain_witness :
    (makeMoveState gT 5 2 7 4 "A").mustCapture = false ∧
    (makeMoveState gT 5 2 7 4 "A").capturingPiece = none ∧
    cellAt (makeMoveState gT 5 2 7 4 "A").board 7 4 = some ⟨Color.red, true⟩ ∧
    (makeMoveState gT 5 2 7 4 "A").currentPlayer =
      (if gT.currentPlayer = .red then Color.black else Color.red) := by
  have h := promotionHaltsChain gT 5 2 7 4 6 3 "A" ⟨Color.red, false⟩
    { success := true, capturedPiece := some ⟨Color.black, false⟩, promoted := true,
      continueCapturing := false, winner := none, gameState := some GState.playing }
    (makeMoveState gT 5 2 7 4 "A")
    (by decide) (by rfl) (by decide) (by decide) (Or.inl ⟨rfl, rfl⟩) (by rfl)
  exact ⟨h.2.2.2.1, h.2.2.2.2.1, h.2.2.2.2.2.1, h.2.2.2.2.2.2⟩

theorem jsIndex_cell_of_boardShape {b : Board} (hs : boardShape b) {r c : Int}
    (hr0 : 0 ≤ r) (hr8 : r < 8) (hc0 : 0 ≤ c) (hc8 : c < 8) :
    ∃ row, jsIndex b r = some row ∧ jsIndex row c = some (cellAt b r c) := by
  have hrb : r.toNat < b.length := by
    rw [hs.1]
    omega
  refine ⟨b[r.toNat], ?_, ?_⟩
  · rw [jsIndex_of_nonneg hr0, List.getElem?_eq_getElem hrb]
  · have hlen : b[r.toNat].length = 8 := hs.2 _ (List.getElem_mem hrb)
    have hcb : c.toNat < b[r.toNat].length := by
      rw [hlen]
      omega
    rw [jsIndex_of_nonneg hc0, List.getElem?_eq_getElem hcb]
    rw [cellAt_eq_cellAtN hr0 hc0]
    unfold cellAtN
    rw [List.getElem?_eq_getElem hrb]
    simp [List.getElem?_eq_getElem hcb]

/-- C2 (amended): (i) a successful capture leaving the moved piece a further
capture from its landing cell, with no promotion, keeps the turn and records
the landing cell as the mandatory continuation piece; (ii) while a
continuation is pending, a request from a different cell that passes the
preliminary checks (turn, own source piece, empty dark destination) is
rejected with the MustContinueCapture reason; (iii) a capture with no
further capture from the landing cell clears the obligation and switches the
turn. -/
theorem multiJumpBinding :
    (∀ (g : CheckersGame) (fr fc tr tc cr cc : Int) (pid : String) (piece : Piece)
        (res : MoveResult) (g' : CheckersGame),
      boardShape g.board →
      isValidMove g fr fc tr tc pid = .ok (.capture cr cc) →
      cellAt g.board fr fc = some piece →
      makeMove g fr fc tr tc pid = .ok (res, g') →
      getPieceCaptues (updAtI (updAtI (updAtI g.board tr tc (some piece)) fr fc none)
        cr cc none) tr tc ≠ [] →
      ¬(piece.king = false ∧
        (piece.color = Color.red ∧ tr = 7 ∨ piece.color = Color.black ∧ tr = 0)) →
      res.success = true ∧ res.continueCapturing = true ∧
      g'.currentPlayer = g.currentPlayer ∧ g'.mustCapture = true ∧
      g'.capturingPiece = some (tr, tc)) ∧
    (∀ (g : CheckersGame) (fr fc tr tc : Int) (pid : String) (cp : Int × Int)
        (pi : PlayerInfo) (piece : Piece),
      boardShape g.board →
      g.mustCapture = true → g.capturingPiece = some cp → (fr ≠ cp.1 ∨ fc ≠ cp.2) →
      lookupPlayer g.players pid = some pi → pi.color = g.currentPlayer →
      0 ≤ fr → fr < 8 → 0 ≤ fc → fc < 8 → 0 ≤ tr → tr < 8 → 0 ≤ tc → tc < 8 →
      cellAt g.board fr fc = some piece → piece.color = g.currentPlayer →
      cellAt g.board tr tc = none →
      (tr + tc) % 2 = 1 →
      makeMove g fr fc tr tc pid =
        .ok (mkRejection "Must continue capturing with the same piece", g)) ∧
    (∀ (g : CheckersGame) (fr fc tr tc cr cc : Int) (pid : String) (piece : Piece)
        (res : MoveResult) (g' : CheckersGame),
      isValidMove g fr fc tr tc pid = .ok (.capture cr cc) →
      cellAt g.board fr fc = some piece →
      makeMove g fr fc tr tc pid = .ok (res, g') →
      getPieceCaptues (updAtI (updAtI (updAtI g.board tr tc (some piece)) fr fc none)
        cr cc none) tr tc = [] →
      res.success = true ∧ res.continueCapturing = false ∧
      g'.mustCapture = false ∧ g'.capturingPiece = none ∧
      g'.currentPlayer = (if g.currentPlayer = .red then Color.black else Color.red)) := by
  refine ⟨?_, ?_, ?_⟩
  · intro g fr fc tr tc cr cc pid piece res g' hs hv hp hmm hadd hnp
    have hexec : executeMove g fr fc tr tc (.capture cr cc) = .ok (res, g') := by
      unfold makeMove at hmm
      simp only [hv] at hmm
      exact hmm
    unfold executeMove at hexec
    split at hexec
    next heq =>
      rw [heq] at hp
      cases hp
    next piece0 heq =>
    have hpe0 : piece = piece0 := Option.some.inj (hp.symm.trans heq)
    subst hpe0
    simp only [Except.ok.injEq, Prod.mk.injEq] at hexec
    rw [if_neg hnp] at hexec
    split at hexec
    next hmore =>
      obtain ⟨hres, hg⟩ := hexec
      subst hres
      split at hg
      next w hw =>
        refine ⟨rfl, rfl, ?_, ?_, ?_⟩ <;> rw [← hg] <;> rfl
      next hw =>
        refine ⟨rfl, rfl, ?_, ?_, ?_⟩ <;> rw [← hg] <;> rfl
    next hmore => exact absurd hadd hmore
  · intro g fr fc tr tc pid cp pi piece hs hmc hcp hne hlp hpicol
      hfr0 hfr8 hfc0 hfc8 htr0 htr8 htc0 htc8 hpc hpcol hdest hpar
    have hmcv : mustContinueViolation g fr fc = true := by
      unfold mustContinueViolation
      rw [hmc, hcp]
      simp [hne]
    obtain ⟨rowF, hgfr, hgfc⟩ := jsIndex_cell_of_boardShape hs hfr0 hfr8 hfc0 hfc8
    obtain ⟨rowT, hgtr, hgtc⟩ := jsIndex_cell_of_boardShape hs htr0 htr8 htc0 htc8
    rw [hpc] at hgfc
    rw [hdest] at hgtc
    have hpar0 : ¬((tr + tc) % 2 = 0) := by omega
    unfold makeMove isValidMove
    simp [hlp, hpicol, hgfr, hgfc, hpcol, hgtr, hgtc, hpar0, hmcv]
  · intro g fr fc tr tc cr cc pid piece res g' hv hp hmm hadd
    have hexec : executeMove g fr fc tr tc (.capture cr cc) = .ok (res, g') := by
      unfold makeMove at hmm
      simp only [hv] at hmm
      exact hmm
    unfold executeMove at hexec
    split at hexec
    next heq =>
      rw [heq] at hp
      cases hp
    next piece0 heq =>
    have hpe0 : piece = piece0 := Option.some.inj (hp.symm.trans heq)
    subst hpe0
    simp only [Except.ok.injEq, Prod.mk.injEq] at hexec
    by_cases hpromo : (piece.king = false ∧
        (piece.color = Color.red ∧ tr = 7 ∨ piece.color = Color.black ∧ tr = 0))
    · rw [if_pos hpromo] at hexec
      split at hexec
      next hmore => exact absurd hadd hmore
      next hmore =>
        obtain ⟨hres, hg⟩ := hexec
        subst hres
        split at hg
        next w hw =>
          refine ⟨rfl, rfl, ?_, ?_, ?_⟩ <;> rw [← hg] <;> rfl
        next hw =>
          refine ⟨rfl, rfl, ?_, ?_, ?_⟩ <;> rw [← hg] <;> rfl
    · rw [if_neg hpromo] at hexec
      split at hexec
      next hmore => exact absurd hadd hmore
      next hmore =>
        obtain ⟨hres, hg⟩ := hexec
        subst hres
        split at hg
        next w hw =>
          refine ⟨rfl, rfl, ?_, ?_, ?_⟩ <;> rw [← hg] <;> rfl
        next hw =>
          refine ⟨rfl, rfl, ?_, ?_, ?_⟩ <;> rw [← hg] <;> rfl

/-- Witness for C2: in `gS` the forced capture (3,0)x(4,1)->(5,2) keeps the
turn and records (5,2); in the resulting session `gT` a request from the
other red piece (3,4) is rejected with MustContinueCapture; the completing
capture (5,2)x(6,3)->(7,4) clears the obligation and switches the turn. -/
theorem multiJumpBinding_witness :
    ((makeMoveState gS 3 0 5 2 "A").currentPlayer = gS.currentPlayer ∧
     (makeMoveState gS 3 0 5 2 "A").mustCapture = true ∧
     (makeMoveState gS 3 0 5 2 "A").capturingPiece = some (5, 2)) ∧
    makeMove gT 3 4 4 3 "A" =
      .ok (mkRejection "Must continue capturing with the same piece", gT) ∧
    ((makeMoveState gT 5 2 7 4 "A").mustCapture = false ∧
     (makeMoveState gT 5 2 7 4 "A").capturingPiece = none ∧
     (makeMoveState gT 5 2 7 4 "A").currentPlayer =
       (if gT.currentPlayer = .red then Color.black else Color.red)) := by
  refine ⟨?_, ?_, ?_⟩
  · have h := multiJumpBinding.1 gS 3 0 5 2 4 1 "A" ⟨Color.red, false⟩
      { success := true, capturedPiece := some ⟨Color.black, false⟩, promoted := false,
        continueCapturing := true, winner := none, gameState := some GState.playing }
      (makeMoveState gS 3 0 5 2 "A")
      (by decide) (by rfl) (by decide) (by rfl) (by decide) (by decide)
    exact ⟨h.2.2.1, h.2.2.2.1, h.2.2.2.2⟩
  · exact multiJumpBinding.2.1 gT 3 4 4 3 "A" (5, 2) ⟨"Alice", Color.red⟩ ⟨Color.red, false⟩
      (by decide) (by decide) (by decide) (by decide) (by decide) (by decide)
      (by decide) (by decide) (by decide) (by decide) (by decide) (by decide)
      (by decide) (by decide) (by decide) (by decide) (by decide) (by decide)
  · have h := multiJumpBinding.2.2 gT 5 2 7 4 6 3 "A" ⟨Color.red, false⟩
      { success := true, capturedPiece := some ⟨Color.black, false⟩, promoted := true,
        continueCapturing := false, winner := none, gameState := some GState.playing }
      (makeMoveState gT 5 2 7 4 "A")
      (by rfl) (by decide) (by rfl) (by decide)
    exact ⟨h.2.2.1, h.2.2.2.1, h.2.2.2.2⟩

theorem checkGameOver_none {g1 : CheckersGame} (h : checkGameOver g1 = none) :
    countPieces g1.board .red ≠ 0 ∧ countPieces g1.board .black ≠ 0 ∧
    getValidMovesForPlayer g1.board g1.currentPlayer ≠ [] := by
  unfold checkGameOver at h
  split at h
  · exact absurd h (by simp)
  next h1 =>
  split at h
  · exact absurd h (by simp)
  next h2 =>
  split at h
  · exact absurd h (by simp)
  next h3 => exact ⟨h1, h2, h3⟩

theorem checkGameOver_some {g1 : CheckersGame} {w : Color}
    (h : checkGameOver g1 = some w) :
    (countPieces g1.board .red = 0 ∧ w = .black) ∨
    (countPieces g1.board .red ≠ 0 ∧ countPieces g1.board .black = 0 ∧ w = .red) ∨
    (countPieces g1.board .red ≠ 0 ∧ countPieces g1.board .black ≠ 0 ∧
     getValidMovesForPlayer g1.board g1.currentPlayer = [] ∧
     w = (if g1.currentPlayer = .red then Color.black else Color.red)) := by
  unfold checkGameOver at h
  split at h
  next h1 =>
    injection h with h
    exact Or.inl ⟨h1, h.symm⟩
  next h1 =>
  split at h
  next h2 =>
    injection h with h
    exact Or.inr (Or.inl ⟨h1, h2, h.symm⟩)
  next h2 =>
  split at h
  next h3 =>
    injection h with h
    exact Or.inr (Or.inr ⟨h1, h2, h3, h.symm⟩)
  next h3 => exact absurd h (by simp)

/-- C4: after every accepted move, zero remaining pieces for a color makes
the other color the winner; otherwise a currentPlayer with no move at all
loses; in either case the game is finished; otherwise winner and phase are
left unchanged (no draw value exists: the winner is always a color). -/
theorem winDetection (g : CheckersGame) (fr fc tr tc : Int) (pid : String)
    (res : MoveResult) (g' : CheckersGame)
    (hmm : makeMove g fr fc tr tc pid = .ok (res, g'))
    (hsucc : res.success = true) :
    (countPieces g'.board .red = 0 → g'.winner = some .black ∧ g'.gameState = .finished) ∧
    (countPieces g'.board .red ≠ 0 → countPieces g'.board .black = 0 →
      g'.winner = some .red ∧ g'.gameState = .finished) ∧
    (countPieces g'.board .red ≠ 0 → countPieces g'.board .black ≠ 0 →
      getValidMovesForPlayer g'.board g'.currentPlayer = [] →
      g'.winner = some (if g'.currentPlayer = .red then Color.black else Color.red) ∧
      g'.gameState = .finished) ∧
    (countPieces g'.board .red ≠ 0 → countPieces g'.board .black ≠ 0 →
      getValidMovesForPlayer g'.board g'.currentPlayer ≠ [] →
      g'.winner = g.winner ∧ g'.gameState = g.gameState) := by
  unfold makeMove at hmm
  split at hmm
  · exact absurd hmm (by simp)
  next reason hv =>
    simp only [Except.ok.injEq, Prod.mk.injEq] at hmm
    rw [← hmm.1] at hsucc
    exact absurd hsucc (by simp [mkRejection])
  all_goals (
    obtain ⟨g1, hw, hgs, hcase⟩ := executeMove_state hmm
    rcases hcase with ⟨hnone, hg⟩ | ⟨w, hsome, hg⟩
    · subst hg
      obtain ⟨h1, h2, h3⟩ := checkGameOver_none hnone
      exact ⟨fun hx => absurd hx h1, fun _ hx => absurd hx h2,
             fun _ _ hx => absurd hx h3, fun _ _ _ => ⟨hw, hgs⟩⟩
    · subst hg
      rcases checkGameOver_some hsome with ⟨h1, hwq⟩ | ⟨h1, h2, hwq⟩ | ⟨h1, h2, h3, hwq⟩
      · subst hwq
        exact ⟨fun _ => ⟨rfl, rfl⟩, fun hx => absurd h1 hx,
               fun hx _ => absurd h1 hx, fun hx _ _ => absurd h1 hx⟩
      · subst hwq
        exact ⟨fun hx => absurd hx h1, fun _ _ => ⟨rfl, rfl⟩,
               fun _ hx _ => absurd h2 hx, fun _ hx _ => absurd h2 hx⟩
      · subst hwq
        exact ⟨fun hx => absurd hx h1, fun _ hx => absurd hx h2,
               fun _ _ _ => ⟨rfl, rfl⟩, fun _ _ hx => absurd h3 hx⟩)

/-- Witness for C4 at the opening move of `gPlaying`: no side is wiped out,
black still has moves, so winner and phase are unchanged. -/
theorem winDetection_witness :
    (makeMoveState gPlaying 2 1 3 0 "A").winner = gPlaying.winner ∧
    (makeMoveState gPlaying 2 1 3 0 "A").gameState = gPlaying.gameState := by
  have h := winDetection gPlaying 2 1 3 0 "A"
    { success := true, capturedPiece := none, promoted := false,
      continueCapturing := false, winner := none, gameState := some GState.playing }
    (makeMoveState gPlaying 2 1 3 0 "A") (by rfl) (by rfl)
  exact h.2.2.2 (by decide) (by decide) (by decide)

/-- C9 (amended): every unsuccessful `makeMove` or `selectTurnOrder` result
carries a reason from the twelve-element list `actualReasons` (the ten codes
of the specification plus the two direction rejections). -/
theorem rejectionReasonTaxonomy :
    (∀ (g : CheckersGame) (fr fc tr tc : Int) (pid : String) (res : MoveResult)
        (g' : CheckersGame), makeMove g fr fc tr tc pid = .ok (res, g') →
      res.success = false → ∃ r, res.reason = some r ∧ r ∈ actualReasons) ∧
    (∀ (g : CheckersGame) (pid choice : String) (res : TurnOrderResult)
        (g' : CheckersGame), selectTurnOrder g pid choice = .ok (res, g') →
      res.success = false → ∃ r, res.reason = some r ∧ r ∈ actualReasons) := by
  constructor
  · intro g fr fc tr tc pid res g' hm hs
    unfold makeMove at hm
    split at hm
    · exact absurd hm (by simp)
    next reason hv =>
      simp only [Except.ok.injEq, Prod.mk.injEq] at hm
      refine ⟨reason, ?_, isValidMove_invalid_mem hv⟩
      rw [← hm.1]
      rfl
    all_goals (
      have hok := (executeMove_ok hm).1
      rw [hok] at hs
      exact absurd hs (by simp))
  · intro g pid choice res g' hm hs
    unfold selectTurnOrder at hm
    split at hm
    · simp only [Except.ok.injEq, Prod.mk.injEq] at hm
      refine ⟨"Not authorized to select turn order", ?_, by decide⟩
      rw [← hm.1]
    · split at hm
      · split at hm
        · exact absurd hm (by simp)
        · simp only [Except.ok.injEq, Prod.mk.injEq] at hm
          rw [← hm.1] at hs
          exact absurd hs (by simp)
      · simp only [Except.ok.injEq, Prod.mk.injEq] at hm
        refine ⟨"Invalid choice", ?_, by decide⟩
        rw [← hm.1]

/-- Witness for C9: a NotYourTurn rejection in `gPlaying` and an
InvalidTurnOrderChoice rejection in `gJoined`, both with reasons inside the
twelve-element list. -/
theorem rejectionReasonTaxonomy_witness :
    (∃ r, (mkRejection "Not your turn").reason = some r ∧ r ∈ actualReasons) ∧
    (∃ r, (⟨false, some "Invalid choice", none, none⟩ : TurnOrderResult).reason = some r ∧
      r ∈ actualReasons) :=
  ⟨rejectionReasonTaxonomy.1 gPlaying 0 1 1 0 "B" (mkRejection "Not your turn") gPlaying
    (by rfl) (by decide),
   rejectionReasonTaxonomy.2 gJoined "A" "bogus" ⟨false, some "Invalid choice", none, none⟩
    gJoined (by rfl) (by decide)⟩

theorem executeMove_no_throw {g : CheckersGame} {fr fc tr tc : Int} {v : MoveValidation}
    (hp : (cellAt g.board fr fc).isSome = true) :
    ∃ pr, executeMove g fr fc tr tc v = .ok pr := by
  obtain ⟨piece, hp⟩ := Option.isSome_iff_exists.mp hp
  unfold executeMove
  split
  next heq =>
    rw [heq] at hp
    cases hp
  next piece0 heq => exact ⟨_, rfl⟩

/-- C8 (amended): for every `makeMove` invocation whose playerId is a key of
the players map and whose row coordinates lie in 0..7 (column coordinates
remain arbitrary client-supplied integers), the call returns a structured
result rather than throwing, and an unsuccessful call leaves the session
unchanged. -/
theorem misuseReturnsStructured (g : CheckersGame) (fr fc tr tc : Int) (pid : String)
    (hpl : (lookupPlayer g.players pid).isSome = true)
    (hs : boardShape g.board)
    (hfr0 : 0 ≤ fr) (hfr8 : fr < 8) (htr0 : 0 ≤ tr) (htr8 : tr < 8) :
    ∃ pr : MoveResult × CheckersGame, makeMove g fr fc tr tc pid = .ok pr ∧
      (pr.1.success = false → pr.2 = g) := by
  have hfr : jsIndex g.board fr ≠ none := jsIndex_isSome_of_lt hfr0 (by rw [hs.1]; omega)
  have htr : jsIndex g.board tr ≠ none := jsIndex_isSome_of_lt htr0 (by rw [hs.1]; omega)
  obtain ⟨v, hv⟩ := @isValidMove_no_throw g fr fc tr tc pid hpl hfr htr
  rcases v with r | _ | ⟨cr, cc⟩
  · refine ⟨(mkRejection r, g), ?_, fun _ => rfl⟩
    unfold makeMove
    simp only [hv]
  · obtain ⟨piece, rowF, rowT, hgfr, hgfc, _⟩ :=
      isValidMove_valid_facts hv (by intro s hx; cases hx)
    obtain ⟨pr, hpr⟩ := @executeMove_no_throw g fr fc tr tc MoveValidation.move
      (by rw [cellAt_of_rows hgfr hgfc]; rfl)
    refine ⟨pr, ?_, ?_⟩
    · unfold makeMove
      simp only [hv]
      exact hpr
    · intro hf
      have := (@executeMove_ok g fr fc tr tc MoveValidation.move pr.1 pr.2
        (by simpa using hpr)).1
      rw [this] at hf
      cases hf
  · obtain ⟨piece, rowF, rowT, hgfr, hgfc, _⟩ :=
      isValidMove_valid_facts hv (by intro s hx; cases hx)
    obtain ⟨pr, hpr⟩ := @executeMove_no_throw g fr fc tr tc (MoveValidation.capture cr cc)
      (by rw [cellAt_of_rows hgfr hgfc]; rfl)
    refine ⟨pr, ?_, ?_⟩
    · unfold makeMove
      simp only [hv]
      exact hpr
    · intro hf
      have := (@executeMove_ok g fr fc tr tc (MoveValidation.capture cr cc) pr.1 pr.2
        (by simpa using hpr)).1
      rw [this] at hf
      cases hf

/-- Witness for C8: a known player attempting an occupied destination in
`gPlaying` gets a structured rejection and the state is unchanged. -/
theorem misuseReturnsStructured_witness :
    ∃ pr : MoveResult × CheckersGame, makeMove gPlaying 2 3 3 3 "A" = .ok pr ∧
      (pr.1.success = false → pr.2 = gPlaying) :=
  misuseReturnsStructured gPlaying 2 3 3 3 "A" (by decide) (by decide)
    (by decide) (by decide) (by decide) (by decide)

theorem mem_getAvailableCaptures {b : Board} {color : Color} {t : Capture}
    (h : t ∈ getAvailableCaptures b color) :
    ∃ r c : Nat, r < 8 ∧ c < 8 ∧ ∃ p, cellAtN b r c = some p ∧ p.color = color ∧
      t ∈ getPieceCaptues b (↑r) (↑c) := by
  unfold getAvailableCaptures at h
  simp only [List.mem_flatMap, List.mem_range] at h
  obtain ⟨r, hr, c, hc, hm⟩ := h
  refine ⟨r, c, hr, hc, ?_⟩
  split at hm
  next p hp =>
    split at hm
    next hcol => exact ⟨p, hp, hcol, hm⟩
    next => simp at hm
  next => simp at hm

theorem mem_getPieceCaptues {b : Board} {row col : Int} {t : Capture}
    (h : t ∈ getPieceCaptues b row col) :
    ∃ piece, cellAt b row col = some piece ∧
    ∃ d : Int × Int, d ∈ pieceDirections piece ∧
      0 ≤ row + 2 * d.1 ∧ row + 2 * d.1 < 8 ∧ 0 ≤ col + 2 * d.2 ∧ col + 2 * d.2 < 8 ∧
      (∃ cp, cellAt b (row + d.1) (col + d.2) = some cp ∧ cp.color ≠ piece.color) ∧
      cellAt b (row + 2 * d.1) (col + 2 * d.2) = none ∧
      t = ⟨(row, col), (row + 2 * d.1, col + 2 * d.2), (row + d.1, col + d.2)⟩ := by
  unfold getPieceCaptues at h
  split at h
  next => simp at h
  next piece hp =>
    simp only [List.mem_flatMap] at h
    obtain ⟨d, hd, hmem⟩ := h
    refine ⟨piece, hp, d, hd, ?_⟩
    split at hmem
    next hbound =>
      split at hmem
      next cp hcap hland =>
        split at hmem
        next hne =>
          simp only [List.mem_singleton] at hmem
          exact ⟨hbound.1, hbound.2.1, hbound.2.2.1, hbound.2.2.2,
                 ⟨cp, hcap, hne⟩, hland, hmem⟩
        next hne => simp at hmem
      next => simp at hmem
    next => simp at hmem

theorem pieceDirections_mem {p : Piece} {d : Int × Int} (h : d ∈ pieceDirections p) :
    (d.1 = 1 ∨ d.1 = -1) ∧ (d.2 = 1 ∨ d.2 = -1) ∧
    (p.king = false → d.1 = (if p.color = Color.red then 1 else -1)) := by
  unfold pieceDirections at h
  split at h
  next hk =>
    simp only [List.mem_cons, List.mem_singleton, List.not_mem_nil, or_false] at h
    rcases h with h | h | h | h <;> subst h <;>
      exact ⟨by decide, by decide, fun hkf => absurd (hkf ▸ hk) (by decide)⟩
  next hk =>
  split at h
  next hc =>
    simp only [List.mem_cons, List.mem_singleton, List.not_mem_nil, or_false] at h
    rcases h with h | h <;> subst h <;>
      exact ⟨by decide, by decide, fun _ => by rw [if_pos hc]⟩
  next hc =>
    simp only [List.mem_cons, List.mem_singleton, List.not_mem_nil, or_false] at h
    rcases h with h | h <;> subst h <;>
      exact ⟨by decide, by decide, fun _ => by rw [if_neg hc]⟩

/-- C1 (amended): with a capture available for the current player, (a) every
step request that passes the preliminary checks (turn, own source piece,
empty dark destination, no continuation binding to another cell, forward
direction for non-kings) is rejected with the MustCapture reason; (b) on a
board satisfying the dark-square invariant, every request matching an
available capture triple succeeds when no capture-continuation is pending or
the triple starts at the recorded continuation cell. -/
theorem mandatoryCapture :
    (∀ (g : CheckersGame) (fr fc tr tc : Int) (pid : String) (pi : PlayerInfo)
        (piece : Piece),
      boardShape g.board →
      lookupPlayer g.players pid = some pi → pi.color = g.currentPlayer →
      0 ≤ fr → fr < 8 → 0 ≤ fc → fc < 8 → 0 ≤ tr → tr < 8 → 0 ≤ tc → tc < 8 →
      cellAt g.board fr fc = some piece → piece.color = g.currentPlayer →
      cellAt g.board tr tc = none →
      (tr + tc) % 2 = 1 →
      (g.mustCapture = false ∨ g.capturingPiece = none ∨ g.capturingPiece = some (fr, fc)) →
      (tr - fr).natAbs = 1 → (tc - fc).natAbs = 1 →
      (piece.king = true ∨ tr - fr = (if piece.color = Color.red then 1 else -1)) →
      getAvailableCaptures g.board g.currentPlayer ≠ [] →
      makeMove g fr fc tr tc pid = .ok (mkRejection "Must capture when possible", g)) ∧
    (∀ (g : CheckersGame) (pid : String) (pi : PlayerInfo) (t : Capture),
      boardOK g.board →
      t ∈ getAvailableCaptures g.board g.currentPlayer →
      lookupPlayer g.players pid = some pi → pi.color = g.currentPlayer →
      (g.mustCapture = false ∨ g.capturingPiece = some t.cfrom) →
      ∃ res g', makeMove g t.cfrom.1 t.cfrom.2 t.cto.1 t.cto.2 pid = .ok (res, g') ∧
        res.success = true) := by
  constructor
  · intro g fr fc tr tc pid pi piece hs hlp hpicol hfr0 hfr8 hfc0 hfc8 htr0 htr8
      htc0 htc8 hpc hpcol hdest hpar hcont hd1 hd2 hdir hcaps
    have hmcv : mustContinueViolation g fr fc = false := by
      unfold mustContinueViolation
      rcases hcont with h | h | h
      · rw [h]
        rfl
      · rw [h]
        simp
      · rw [h]
        simp
    obtain ⟨rowF, hgfr, hgfc⟩ := jsIndex_cell_of_boardShape hs hfr0 hfr8 hfc0 hfc8
    obtain ⟨rowT, hgtr, hgtc⟩ := jsIndex_cell_of_boardShape hs htr0 htr8 htc0 htc8
    rw [hpc] at hgfc
    rw [hdest] at hgtc
    have hpar0 : ¬((tr + tc) % 2 = 0) := by omega
    have hdirok : ¬(piece.king = false ∧
        ¬(tr - fr = (if g.currentPlayer = Color.red then 1 else -1))) := by
      rw [← hpcol]
      rcases hdir with h | h
      · intro hx
        rw [h] at hx
        exact absurd hx.1 (by decide)
      · intro hx
        exact hx.2 h
    unfold makeMove isValidMove
    simp [hlp, hpicol, hgfr, hgfc, hpcol, hgtr, hgtc, hpar0, hmcv, hd1, hd2, hdirok, hcaps]
  · intro g pid pi t hOK hmem hlp hpicol hcont
    obtain ⟨r, c, hr, hc, p, hpN, hpcolN, hmemP⟩ := mem_getAvailableCaptures hmem
    obtain ⟨piece, hpAt, d, hd, hb1, hb2, hb3, hb4, ⟨cp, hcap, hcpne⟩, hland, ht⟩ :=
      mem_getPieceCaptues hmemP
    obtain ⟨hdx, hdy, hdfwd⟩ := pieceDirections_mem hd
    have hfr0 : (0 : Int) ≤ (r : Int) := Int.natCast_nonneg r
    have hfc0 : (0 : Int) ≤ (c : Int) := Int.natCast_nonneg c
    have hfr8 : ((r : Int)) < 8 := by exact_mod_cast hr
    have hfc8 : ((c : Int)) < 8 := by exact_mod_cast hc
    have hpieceP : piece = p := by
      have hx : cellAt g.board (↑r) (↑c) = cellAtN g.board r c := by
        rw [cellAt_eq_cellAtN hfr0 hfc0]
        simp
      rw [hx, hpN] at hpAt
      exact Option.some.inj hpAt.symm
    have hpcol : piece.color = g.currentPlayer := by
      rw [hpieceP]
      exact hpcolN
    have hparN : (r + c) % 2 = 1 := hOK.2 r hr c hc (by rw [hpN]; rfl)
    subst ht
    have ediffr : ((r : Int) + 2 * d.1) - (r : Int) = 2 * d.1 := by ring
    have ediffc : ((c : Int) + 2 * d.2) - (c : Int) = 2 * d.2 := by ring
    have eabsr : ((2 : Int) * d.1).natAbs = 2 := by
      rcases hdx with h | h <;> rw [h] <;> rfl
    have eabsc : ((2 : Int) * d.2).natAbs = 2 := by
      rcases hdy with h | h <;> rw [h] <;> rfl
    have esignr : ((2 : Int) * d.1).sign = d.1 := by
      rcases hdx with h | h <;> rw [h] <;> rfl
    have esignc : ((2 : Int) * d.2).sign = d.2 := by
      rcases hdy with h | h <;> rw [h] <;> rfl
    have hpar : (((r : Int) + 2 * d.1) + ((c : Int) + 2 * d.2)) % 2 = 1 := by omega
    have hpar0 : ¬((((r : Int) + 2 * d.1) + ((c : Int) + 2 * d.2)) % 2 = 0) := by omega
    have hmcv : mustContinueViolation g (↑r) (↑c) = false := by
      unfold mustContinueViolation
      rcases hcont with h | h
      · rw [h]
        rfl
      · rw [h]
        simp
    have hdirok : ¬(piece.king = false ∧
        ¬(d.1 = (if g.currentPlayer = Color.red then 1 else -1))) := by
      rw [← hpcol]
      intro hx
      exact hx.2 (hdfwd hx.1)
    have hdistno : ¬(((2 : Int) * d.1).natAbs = 1 ∧ ((2 : Int) * d.2).natAbs = 1) := by
      rw [eabsr]
      simp
    have hcpcur : ¬(cp.color = g.currentPlayer) := by
      intro hx
      exact hcpne (hx.trans hpcol.symm)
    obtain ⟨rowF, hgfr, hgfc⟩ := jsIndex_cell_of_boardShape hOK.1 hfr0 hfr8 hfc0 hfc8
    obtain ⟨rowT, hgtr, hgtc⟩ := jsIndex_cell_of_boardShape hOK.1 hb1 hb2 hb3 hb4
    rw [hpAt] at hgfc
    rw [hland] at hgtc
    have hvalid : isValidMove g (↑r) (↑c) ((r : Int) + 2 * d.1) ((c : Int) + 2 * d.2) pid =
        .ok (.capture ((r : Int) + d.1) ((c : Int) + d.2)) := by
      unfold isValidMove
      simp [hlp, hpicol, hgfr, hgfc, hpcol, hgtr, hgtc, hpar0, hmcv, hdistno,
            ediffr, ediffc, eabsr, eabsc, esignr, esignc, hdirok, hcap, hcpcur]
    obtain ⟨pr, hpr⟩ := @executeMove_no_throw g (↑r) (↑c) ((r : Int) + 2 * d.1)
      ((c : Int) + 2 * d.2) (MoveValidation.capture ((r : Int) + d.1) ((c : Int) + d.2))
      (by rw [hpAt]; rfl)
    refine ⟨pr.1, pr.2, ?_, ?_⟩
    · unfold makeMove
      simp only [hvalid]
      simpa using hpr
    · exact (@executeMove_ok g (↑r) (↑c) ((r : Int) + 2 * d.1) ((c : Int) + 2 * d.2)
        (MoveValidation.capture ((r : Int) + d.1) ((c : Int) + d.2)) pr.1 pr.2
        (by simpa using hpr)).1

/-- Witness for C1 in the session `gS` (red must capture (3,0)x(4,1)): the
otherwise-legal step (1,2)->(2,3) is rejected with MustCapture, and the
available capture itself succeeds. -/
theorem mandatoryCapture_witness :
    makeMove gS 1 2 2 3 "A" = .ok (mkRejection "Must capture when possible", gS) ∧
    (∃ res g', makeMove gS 3 0 5 2 "A" = .ok (res, g') ∧ res.success = true) := by
  constructor
  · exact mandatoryCapture.1 gS 1 2 2 3 "A" ⟨"Alice", Color.red⟩ ⟨Color.red, false⟩
      (by decide) (by decide) (by decide) (by decide) (by decide) (by decide)
      (by decide) (by decide) (by decide) (by decide) (by decide) (by decide)
      (by decide) (by decide) (by decide) (Or.inl (by decide)) (by decide)
      (by decide) (Or.inr (by decide)) (by decide)
  · exact mandatoryCapture.2 gS "A" ⟨"Alice", Color.red⟩ ⟨(3, 0), (5, 2), (4, 1)⟩
      (by decide) (by decide) (by decide) (by decide) (Or.inl (by decide))

theorem boardOK_updAtI_none {b : Board} (h : boardOK b) (r c : Int) :
    boardOK (updAtI b r c none) := by
  unfold updAtI
  split
  · refine ⟨boardShape_updAt h.1, ?_⟩
    intro r' hr' c' hc' hsome
    rcases cellAtN_updAt_isSome h.1 hsome with hx | ⟨_, _, hx⟩
    · exact h.2 r' hr' c' hc' hx
    · exact absurd hx (by simp)
  · exact h

theorem boardOK_updAtI_some {b : Board} (h : boardOK b) {r c : Int} {p : Piece}
    (hr0 : 0 ≤ r) (hc0 : 0 ≤ c) (hpar : (r + c) % 2 = 1) :
    boardOK (updAtI b r c (some p)) := by
  unfold updAtI
  rw [if_pos ⟨hr0, hc0⟩]
  refine ⟨boardShape_updAt h.1, ?_⟩
  intro r' hr' c' hc' hsome
  rcases cellAtN_updAt_isSome h.1 hsome with hx | ⟨he1, he2, _⟩
  · exact h.2 r' hr' c' hc' hx
  · subst he1
    subst he2
    omega

theorem executeMove_board {g : CheckersGame} {fr fc tr tc : Int} {v : MoveValidation}
    {res : MoveResult} {g' : CheckersGame}
    (h : executeMove g fr fc tr tc v = .ok (res, g')) :
    ∃ piece, cellAt g.board fr fc = some piece ∧
      (g'.board = updAtI (updAtI g.board tr tc (some piece)) fr fc none ∨
       g'.board = updAtI (updAtI (updAtI g.board tr tc (some piece)) fr fc none) tr tc
         (some ⟨piece.color, true⟩) ∨
       ∃ cr cc,
        g'.board = updAtI (updAtI (updAtI g.board tr tc (some piece)) fr fc none)
          cr cc none ∨
        g'.board = updAtI (updAtI (updAtI (updAtI g.board tr tc (some piece)) fr fc none)
          cr cc none) tr tc (some ⟨piece.color, true⟩)) := by
  unfold executeMove at h
  split at h
  · exact absurd h (by simp)
  next piece heq =>
  refine ⟨piece, heq, ?_⟩
  have hpromodec := Classical.em (piece.king = false ∧
    (piece.color = Color.red ∧ tr = 7 ∨ piece.color = Color.black ∧ tr = 0))
  rcases v with r | _ | ⟨cr, cc⟩
  · simp only [Except.ok.injEq, Prod.mk.injEq] at h
    obtain ⟨h1, h2⟩ := h
    clear h1
    simp only [Bool.false_eq_true, if_false] at h2
    rcases hpromodec with hpromo | hpromo
    · rw [if_pos hpromo] at h2
      split at h2
      all_goals exact Or.inr (Or.inl (by rw [← h2]))
    · rw [if_neg hpromo] at h2
      split at h2
      all_goals exact Or.inl (by rw [← h2])
  · simp only [Except.ok.injEq, Prod.mk.injEq] at h
    obtain ⟨h1, h2⟩ := h
    clear h1
    simp only [Bool.false_eq_true, if_false] at h2
    rcases hpromodec with hpromo | hpromo
    · rw [if_pos hpromo] at h2
      split at h2
      all_goals exact Or.inr (Or.inl (by rw [← h2]))
    · rw [if_neg hpromo] at h2
      split at h2
      all_goals exact Or.inl (by rw [← h2])
  · simp only [Except.ok.injEq, Prod.mk.injEq] at h
    obtain ⟨h1, h2⟩ := h
    clear h1
    by_cases hmore : getPieceCaptues (updAtI (updAtI (updAtI g.board tr tc (some piece))
        fr fc none) cr cc none) tr tc ≠ []
    · rw [if_pos hmore] at h2
      simp only [eq_self_iff_true, if_true, Bool.false_eq_true, Bool.true_eq_false,
        if_false] at h2
      rcases hpromodec with hpromo | hpromo
      · rw [if_pos hpromo] at h2
        split at h2
        all_goals exact Or.inr (Or.inr ⟨cr, cc, Or.inr (by rw [← h2])⟩)
      · rw [if_neg hpromo] at h2
        split at h2
        all_goals exact Or.inr (Or.inr ⟨cr, cc, Or.inl (by rw [← h2])⟩)
    · rw [if_neg hmore] at h2
      simp only [eq_self_iff_true, if_true, Bool.false_eq_true, Bool.true_eq_false,
        if_false] at h2
      rcases hpromodec with hpromo | hpromo
      · rw [if_pos hpromo] at h2
        split at h2
        all_goals exact Or.inr (Or.inr ⟨cr, cc, Or.inr (by rw [← h2])⟩)
      · rw [if_neg hpromo] at h2
        split at h2
        all_goals exact Or.inr (Or.inr ⟨cr, cc, Or.inl (by rw [← h2])⟩)

theorem boardOK_after_exec {g : CheckersGame} {fr fc tr tc : Int} {v : MoveValidation}
    {res : MoveResult} {g' : CheckersGame} (h : boardOK g.board)
    (htr0 : 0 ≤ tr) (htc0 : 0 ≤ tc) (hpar : (tr + tc) % 2 = 1)
    (hm : executeMove g fr fc tr tc v = .ok (res, g')) : boardOK g'.board := by
  obtain ⟨piece, hpAt, hb⟩ := executeMove_board hm
  rcases hb with hb | hb | ⟨cr, cc, hb | hb⟩ <;> rw [hb]
  · exact boardOK_updAtI_none (boardOK_updAtI_some h htr0 htc0 hpar) fr fc
  · exact boardOK_updAtI_some
      (boardOK_updAtI_none (boardOK_updAtI_some h htr0 htc0 hpar) fr fc) htr0 htc0 hpar
  · exact boardOK_updAtI_none
      (boardOK_updAtI_none (boardOK_updAtI_some h htr0 htc0 hpar) fr fc) cr cc
  · exact boardOK_updAtI_some (boardOK_updAtI_none
      (boardOK_updAtI_none (boardOK_updAtI_some h htr0 htc0 hpar) fr fc) cr cc)
      htr0 htc0 hpar

theorem makeMove_ok_boardOK {g : CheckersGame} {fr fc tr tc : Int} {pid : String}
    {res : MoveResult} {g' : CheckersGame} (h : boardOK g.board)
    (hm : makeMove g fr fc tr tc pid = .ok (res, g')) : boardOK g'.board := by
  unfold makeMove at hm
  split at hm
  · exact absurd hm (by simp)
  next reason hv =>
    simp only [Except.ok.injEq, Prod.mk.injEq] at hm
    rw [← hm.2]
    exact h
  all_goals (
    rename_i hv
    obtain ⟨piece, rowF, rowT, hgfr, hgfc, hpcol, hgtr, hgtc, hpar, _⟩ :=
      isValidMove_valid_facts hv (by intro s hx; cases hx)
    exact boardOK_after_exec h (jsIndex_eq_some hgtr).1 (jsIndex_eq_some hgtc).1 hpar hm)

theorem makeMoveState_boardOK {g : CheckersGame} (h : boardOK g.board)
    (fr fc tr tc : Int) (pid : String) :
    boardOK (makeMoveState g fr fc tr tc pid).board := by
  unfold makeMoveState
  rcases hm : makeMove g fr fc tr tc pid with e | ⟨res, g'⟩
  · exact h
  · exact makeMove_ok_boardOK h hm

theorem addPlayerState_board (g : CheckersGame) (pid name : String) :
    (addPlayerState g pid name).board = g.board := by
  simp only [addPlayerState, addPlayer]
  repeat' split
  all_goals rfl

theorem selectTurnOrder_board {g : CheckersGame} {pid choice : String}
    {res : TurnOrderResult} {g' : CheckersGame}
    (h : selectTurnOrder g pid choice = .ok (res, g')) : g'.board = g.board := by
  unfold selectTurnOrder at h
  repeat' split at h
  all_goals first
    | (simp only [Except.ok.injEq, Prod.mk.injEq] at h
       rw [← h.2])
    | exact absurd h (by simp)

theorem selectTurnOrderState_board (g : CheckersGame) (pid choice : String) :
    (selectTurnOrderState g pid choice).board = g.board := by
  unfold selectTurnOrderState
  rcases hm : selectTurnOrder g pid choice with e | ⟨res, g2⟩
  · rfl
  · exact selectTurnOrder_board hm

theorem initializeBoard_boardOK : boardOK initializeBoard := by decide

theorem resetGame_board (g : CheckersGame) : (resetGame g).board = initializeBoard := by
  simp only [resetGame]
  split
  all_goals rfl

theorem requestNewGameState_boardOK {g : CheckersGame} (h : boardOK g.board)
    (pid : String) : boardOK (requestNewGameState g pid).board := by
  simp only [requestNewGameState, requestNewGame]
  repeat' split
  all_goals first
    | (rw [resetGame_board]; exact initializeBoard_boardOK)
    | exact h

theorem step_boardOK {g g' : CheckersGame} (hstep : Step g g') (h : boardOK g.board) :
    boardOK g'.board := by
  cases hstep with
  | addPlayer pid name =>
    rw [addPlayerState_board]
    exact h
  | removePlayer pid => exact h
  | makeMove fr fc tr tc pid => exact makeMoveState_boardOK h fr fc tr tc pid
  | selectTurnOrder pid choice =>
    rw [selectTurnOrderState_board]
    exact h
  | requestNewGame pid => exact requestNewGameState_boardOK h pid
  | cancelNewGameRequest pid => exact h

/-- C7: in every session state reachable from a fresh `CheckersGame` by any
sequence of addPlayer, removePlayer, makeMove, selectTurnOrder,
requestNewGame and cancelNewGameRequest commands, the board is an 8x8 grid
whose occupied cells all have odd (row+col) parity; each cell holds at most
one piece by the cell representation itself. -/
theorem darkSquareInvariant (g : CheckersGame) (h : Reach g) : boardOK g.board := by
  unfold Reach at h
  induction h with
  | refl => exact initializeBoard_boardOK
  | tail hsteps hstep ih => exact step_boardOK hstep ih

/-- Witness for C7 at the reflexivity point of reachability: the fresh
session's board satisfies the invariant. -/
theorem darkSquareInvariant_witness : boardOK freshGame.board :=
  darkSquareInvariant freshGame Relation.ReflTransGen.refl
